import Mathlib

/-!
Verification of the circle-packing engine in `circlepack.py`
(`non_overlapping_circle_packed_image` and its nested helpers).

Shallow embedding conventions:
* Python integers are `Int`; Python float arithmetic on configuration values
  (`math.pi`, `/`, `int(...)`) is modelled exactly over `ℚ`, with `math.pi`
  embedded as the rational value of the IEEE-754 double closest to π.
* `random.randint(a, b)` is modelled by an oracle stream `rng : Nat → Nat` of
  raw draws, mapped into `[a, b]`; Python raises `ValueError` when `b < a`,
  which is modelled by `Except.error .randintEmptyRange`.
* `random.choices(size_ranges, weights=[0.2,0.3,0.3,0.15,0.05])` is modelled by
  thresholding one raw draw modulo 100 (20/30/30/15/5 shares); every bucket is
  reachable, matching the weights' supports.
* `min(sizes)` / `max(sizes)` on an empty list raise `ValueError`, modelled by
  `Except.error .minEmptySeq`.
* Drawing on the PIL canvas (`draw.ellipse`, `canvas.save`) and printing are
  external effects with no influence on placement, and are omitted; the colour
  computation `get_avg_color` is a total pure function of the source raster and
  is modelled separately (it cannot fail, so omitting its call sites from the
  packing loop does not change control flow).
* The Phase 1 `while` loop is run on explicit fuel `(target * max_attempts).toNat`;
  `phase1_fuel_adequate` below proves this fuel is never the reason the loop
  stops (the loop body increments `total_attempts` on every iteration, so the
  guard `total_attempts < target * max_attempts` fails before fuel runs out).
-/

deriving instance DecidableEq for Except

namespace CirclePack

/-- A placed circle, as stored in `placed_circles`: integer center and radius. -/
structure Circle where
  x : Int
  y : Int
  r : Int
deriving DecidableEq

/-- Python exceptions that the code under scrutiny can raise. Both are
`ValueError` in Python; we keep the two raise sites distinct. -/
inductive Err where
  /-- `random.randint(a, b)` with `b < a` ("empty range for randrange()"). -/
  | randintEmptyRange
  /-- `min(...)` / `max(...)` of an empty sequence. -/
  | minEmptySeq
deriving DecidableEq

/-- The decoded source image: dimensions plus an RGB pixel array,
`pix row col = (R, G, B)` like `img_np[y][x]`. -/
structure Img where
  width : Nat
  height : Nat
  pix : Nat → Nat → Nat × Nat × Nat

/-- `random.randint lo hi`: uniform integer in `[lo, hi]`, `ValueError` when the
range is empty. The raw draw `u` is mapped into the range by reduction mod the
range size, so every value of the range is reachable. -/
def randint (lo hi : Int) (u : Nat) : Except Err Int :=
  if hi < lo then .error .randintEmptyRange
  else .ok (lo + (u : Int) % (hi - lo + 1))

/-- Bucket selection of `random.choices(size_ranges, weights=size_weights)[0]`
with `size_weights = [0.2, 0.3, 0.3, 0.15, 0.05]`: the raw draw mod 100 is cut
at the cumulative weights 20 / 50 / 80 / 95. -/
def chooseBucket (u : Nat) : Nat :=
  if u % 100 < 20 then 0
  else if u % 100 < 50 then 1
  else if u % 100 < 80 then 2
  else if u % 100 < 95 then 3
  else 4

/-- `size_ranges` from `get_varied_radius`. -/
def size_ranges (min_radius max_radius : Int) : Nat → Int × Int
  | 0 => (min_radius, min_radius + 3)
  | 1 => (min_radius + 3, min_radius + 8)
  | 2 => (min_radius + 8, min_radius + 13)
  | 3 => (min_radius + 13, min_radius + 18)
  | _ => (min_radius + 18, max_radius)

/-- `get_varied_radius`: pick a weighted bucket, then
`random.randint(chosen_range[0], min(chosen_range[1], max_radius))`.
Consumes two raw draws `u` (bucket) and `v` (randint). -/
def get_varied_radius (min_radius max_radius : Int) (u v : Nat) : Except Err Int :=
  let chosen_range := size_ranges min_radius max_radius (chooseBucket u)
  randint chosen_range.1 (min chosen_range.2 max_radius) v

/-- `circles_overlap`: `math.sqrt((x2-x1)**2 + (y2-y1)**2) < r1 + r2 + buffer`.
Since the distance is the nonnegative square root of an integer, the float
comparison is equivalent to `0 < s ∧ d² < s²` with `s = r1 + r2 + buffer`.
The call sites always use the default `buffer = 2`. -/
def circles_overlap (x1 y1 r1 x2 y2 r2 buffer : Int) : Bool :=
  decide (0 < r1 + r2 + buffer ∧
    (x2 - x1) ^ 2 + (y2 - y1) ^ 2 < (r1 + r2 + buffer) ^ 2)

/-- `can_place_circle`: boundary check, then overlap check against every
already placed circle. -/
def can_place_circle (width height : Int) (placed : List Circle) (x y r : Int) : Bool :=
  if x - r < 0 ∨ x + r > width ∨ y - r < 0 ∨ y + r > height then false
  else placed.all (fun e => ! circles_overlap x y r e.x e.y e.r 2)

/-- numpy basic-slice index normalization for an axis of length `n`:
a negative index counts from the end (then is clipped at 0), a nonnegative
index is clipped at `n`. -/
def npIndex (n : Nat) (i : Int) : Nat :=
  if i < 0 then ((n : Int) + i).toNat else min n i.toNat

/-- Sum of one colour channel over the pixel rectangle
`[y0, y0 + rows) × [x0, x0 + cols)`. -/
def regionSum (img : Img) (ch : Nat × Nat × Nat → Nat) (y0 x0 rows cols : Nat) : Nat :=
  (List.range rows).foldl
    (fun acc dy =>
      acc + (List.range cols).foldl (fun a dx => a + ch (img.pix (y0 + dy) (x0 + dx))) 0)
    0

/-- `get_avg_color`: clamp the bounding box, take the numpy slice
`img_np[y_min:y_max, x_min:x_max]`, return gray when it is empty, otherwise
the per-channel mean truncated to integer (`astype(int)` truncates toward
zero; the mean of naturals is nonnegative, so this is `Nat` division). -/
def get_avg_color (img : Img) (x y r : Int) : Nat × Nat × Nat :=
  let x_min : Int := max 0 (x - r)
  let x_max : Int := min (img.width : Int) (x + r)
  let y_min : Int := max 0 (y - r)
  let y_max : Int := min (img.height : Int) (y + r)
  let xs := npIndex img.width x_min
  let xe := npIndex img.width x_max
  let ys := npIndex img.height y_min
  let ye := npIndex img.height y_max
  if xe ≤ xs ∨ ye ≤ ys then (128, 128, 128)
  else
    let rows := ye - ys
    let cols := xe - xs
    let n := rows * cols
    (regionSum img (fun p => p.1) ys xs rows cols / n,
     regionSum img (fun p => p.2.1) ys xs rows cols / n,
     regionSum img (fun p => p.2.2) ys xs rows cols / n)

/-- The colour sampler as the specification words it: the mean of all pixel
channels within the circle's bounding box intersected with the canvas
rectangle, and neutral gray `(128, 128, 128)` when that intersection is
empty. -/
def avgColorSpec (img : Img) (x y r : Int) : Nat × Nat × Nat :=
  let x0 : Int := max 0 (x - r)
  let x1 : Int := min (img.width : Int) (x + r)
  let y0 : Int := max 0 (y - r)
  let y1 : Int := min (img.height : Int) (y + r)
  if x1 ≤ x0 ∨ y1 ≤ y0 then (128, 128, 128)
  else
    let rows := (y1 - y0).toNat
    let cols := (x1 - x0).toNat
    let n := rows * cols
    (regionSum img (fun p => p.1) y0.toNat x0.toNat rows cols / n,
     regionSum img (fun p => p.2.1) y0.toNat x0.toNat rows cols / n,
     regionSum img (fun p => p.2.2) y0.toNat x0.toNat rows cols / n)

/-- `math.pi`, exactly: the IEEE-754 double closest to π is
`884279719003555 / 2^48`. -/
def piFloat : ℚ := 884279719003555 / 281474976710656

/-- Python `int(...)` on a float: truncation toward zero. -/
def pyInt (q : ℚ) : Int :=
  if q < 0 then q.ceil else q.floor

/-- `target_circles = int((image_area / avg_circle_area) * density_factor)`
with `avg_circle_area = math.pi * ((min_radius + max_radius) / 2) ** 2` and
`image_area = width * height`. -/
def target_circles (width height : Nat) (min_radius max_radius : Int)
    (density_factor : ℚ) : Int :=
  let avg_circle_area : ℚ :=
    piFloat * (((min_radius : ℚ) + (max_radius : ℚ)) / 2) ^ 2
  let image_area : ℚ := (width : ℚ) * (height : ℚ)
  pyInt ((image_area / avg_circle_area) * density_factor)

/-- Mutable state of the packing loops. `rngIdx` is the read position in the
raw random stream; `phase2_draws` is a ghost counter of completed Phase 2
candidate draws (it models no program variable and influences nothing). -/
structure PackState where
  placed : List Circle
  circles_placed : Int
  total_attempts : Int
  rngIdx : Nat
  phase2_draws : Nat
deriving DecidableEq

/-- The state both loops start from. -/
def initState : PackState :=
  { placed := [], circles_placed := 0, total_attempts := 0, rngIdx := 0, phase2_draws := 0 }

/-- One iteration of the Phase 1 `while` body: sample a varied radius, sample a
center with `randint(r, width - r)` / `randint(r, height - r)`, place on
success, and increment `total_attempts` in either case. A `ValueError` raised
by any of the three draws aborts before the counter update, as in Python. -/
def phase1_body (rng : Nat → Nat) (width height min_radius max_radius : Int)
    (s : PackState) : Except Err PackState :=
  match get_varied_radius min_radius max_radius (rng s.rngIdx) (rng (s.rngIdx + 1)) with
  | .error e => .error e
  | .ok r =>
    match randint r (width - r) (rng (s.rngIdx + 2)) with
    | .error e => .error e
    | .ok x =>
      match randint r (height - r) (rng (s.rngIdx + 3)) with
      | .error e => .error e
      | .ok y =>
        if can_place_circle width height s.placed x y r then
          .ok { placed := s.placed ++ [⟨x, y, r⟩]
                circles_placed := s.circles_placed + 1
                total_attempts := s.total_attempts + 1
                rngIdx := s.rngIdx + 4
                phase2_draws := s.phase2_draws }
        else
          .ok { s with total_attempts := s.total_attempts + 1, rngIdx := s.rngIdx + 4 }

/-- The Phase 1 loop:
`while circles_placed < target_circles and total_attempts < target_circles * max_attempts`,
run on explicit fuel (see the header note and `phase1_fuel_adequate`). -/
def phase1 (rng : Nat → Nat) (width height min_radius max_radius target budget : Int) :
    Nat → PackState → Except Err PackState
  | 0, s => .ok s
  | fuel + 1, s =>
    if s.circles_placed < target ∧ s.total_attempts < budget then
      match phase1_body rng width height min_radius max_radius s with
      | .error e => .error e
      | .ok s₁ => phase1 rng width height min_radius max_radius target budget fuel s₁
    else
      .ok s

/-- One iteration of the Phase 2 `for` body: `r = random.randint(min_radius,
min_radius + 5)`, then a center draw, then placement on success. The ghost
counter `phase2_draws` records one completed candidate draw. -/
def phase2_body (rng : Nat → Nat) (width height min_radius : Int)
    (s : PackState) : Except Err PackState :=
  match randint min_radius (min_radius + 5) (rng s.rngIdx) with
  | .error e => .error e
  | .ok r =>
    match randint r (width - r) (rng (s.rngIdx + 1)) with
    | .error e => .error e
    | .ok x =>
      match randint r (height - r) (rng (s.rngIdx + 2)) with
      | .error e => .error e
      | .ok y =>
        if can_place_circle width height s.placed x y r then
          .ok { placed := s.placed ++ [⟨x, y, r⟩]
                circles_placed := s.circles_placed + 1
                total_attempts := s.total_attempts
                rngIdx := s.rngIdx + 3
                phase2_draws := s.phase2_draws + 1 }
        else
          .ok { s with rngIdx := s.rngIdx + 3, phase2_draws := s.phase2_draws + 1 }

/-- The Phase 2 loop: `for i in range(gap_fill_attempts)`. -/
def phase2 (rng : Nat → Nat) (width height min_radius : Int) :
    Nat → PackState → Except Err PackState
  | 0, s => .ok s
  | n + 1, s =>
    match phase2_body rng width height min_radius s with
    | .error e => .error e
    | .ok s₁ => phase2 rng width height min_radius n s₁

/-- The run statistics the code computes (and prints) after both phases. -/
structure RunStats where
  min : Int
  max : Int
  avg : ℚ
  total_circles : Nat
deriving DecidableEq

/-- `size_stats`: `min(sizes)`, `max(sizes)`, `sum(sizes) / len(sizes)`,
`len(sizes)` over `sizes = [r for _, _, r in placed_circles]`. Python's
`min` / `max` raise `ValueError` on an empty sequence. -/
def size_stats (placed : List Circle) : Except Err RunStats :=
  let sizes := placed.map (fun c => c.r)
  match sizes with
  | [] => .error .minEmptySeq
  | a :: rest =>
    .ok { min := rest.foldl (fun u z => Min.min u z) a
          max := rest.foldl (fun u z => Max.max u z) a
          avg := ((sizes.foldl (fun u z => u + z) 0 : Int) : ℚ) / ((sizes.length : Nat) : ℚ)
          total_circles := sizes.length }

/-- Observable outcome of a completed run. `ret` is the value the Python
function returns (line `return output_path`: the output path alone). The
remaining fields expose the final internal state and the computed-and-printed
statistics for specification purposes; none of them is part of the Python
return value. -/
structure RunOutcome where
  ret : String
  placed : List Circle
  total_attempts : Int
  phase2_draws : Nat
  stats : RunStats
deriving DecidableEq

/-- `non_overlapping_circle_packed_image`, placement-relevant behaviour:
target computation, Phase 1, Phase 2, statistics, return. -/
def non_overlapping_circle_packed_image (img : Img) (output_path : String)
    (min_radius max_radius : Int) (density_factor : ℚ) (max_attempts : Int)
    (rng : Nat → Nat) : Except Err RunOutcome :=
  match phase1 rng (img.width : Int) (img.height : Int) min_radius max_radius
      (target_circles img.width img.height min_radius max_radius density_factor)
      (target_circles img.width img.height min_radius max_radius density_factor * max_attempts)
      (target_circles img.width img.height min_radius max_radius density_factor
        * max_attempts).toNat initState with
  | .error e => .error e
  | .ok s₁ =>
    match phase2 rng (img.width : Int) (img.height : Int) min_radius
        (Int.fdiv (target_circles img.width img.height min_radius max_radius density_factor)
          2).toNat s₁ with
    | .error e => .error e
    | .ok s₂ =>
      match size_stats s₂.placed with
      | .error e => .error e
      | .ok stats =>
        .ok { ret := output_path
              placed := s₂.placed
              total_attempts := s₂.total_attempts
              phase2_draws := s₂.phase2_draws
              stats := stats }

/-- The Python return value of a run, when it completes: a bare string. -/
def retValueOf (e : Except Err RunOutcome) : Option String :=
  (e.toOption).map (fun o => o.ret)

/-- The statistics a run computes, when it completes. -/
def statsOf (e : Except Err RunOutcome) : Option RunStats :=
  (e.toOption).map (fun o => o.stats)

/-- Pairwise clearance of a placed list: no two circles overlap (with the
default buffer 2). -/
def Separated (l : List Circle) : Prop :=
  l.Pairwise (fun a b => circles_overlap a.x a.y a.r b.x b.y b.r 2 = false)

/-- A circle lies fully inside the canvas. -/
def InBounds (width height : Int) (c : Circle) : Prop :=
  c.r ≤ c.x ∧ c.x ≤ width - c.r ∧ c.r ≤ c.y ∧ c.y ≤ height - c.r

/-- A 30×30 uniform test raster. -/
def img30 : Img := ⟨30, 30, fun _ _ => (9, 9, 9)⟩

/-- A 20×20 uniform test raster. -/
def img20 : Img := ⟨20, 20, fun _ _ => (77, 77, 77)⟩

/-- A 10×10 all-black test raster. -/
def img10 : Img := ⟨10, 10, fun _ _ => (0, 0, 0)⟩

/-- A 1×1 test raster. -/
def img1 : Img := ⟨1, 1, fun _ _ => (0, 0, 0)⟩

/-- The outcome of the concrete run used by the witnesses: canvas 30×30,
`min_radius = 3`, `max_radius = 25`, `density_factor = 1.5`,
`max_attempts = 1`, raw random stream `fun k => k`. -/
def demoOut : RunOutcome :=
  { ret := "p.png"
    placed := [⟨6, 7, 4⟩, ⟨14, 15, 5⟩]
    total_attempts := 2
    phase2_draws := 1
    stats := { min := 4, max := 5, avg := 9 / 2, total_circles := 2 } }

/-! ### Unfolding equations for the fuel-indexed loops -/

theorem phase1_zero (rng : Nat → Nat) (width height min_radius max_radius target budget : Int)
    (s : PackState) :
    phase1 rng width height min_radius max_radius target budget 0 s = .ok s := rfl

theorem phase1_succ (rng : Nat → Nat) (width height min_radius max_radius target budget : Int)
    (fuel : Nat) (s : PackState) :
    phase1 rng width height min_radius max_radius target budget (fuel + 1) s =
      if s.circles_placed < target ∧ s.total_attempts < budget then
        match phase1_body rng width height min_radius max_radius s with
        | .error e => .error e
        | .ok s₁ => phase1 rng width height min_radius max_radius target budget fuel s₁
      else
        .ok s := rfl

theorem phase2_zero (rng : Nat → Nat) (width height min_radius : Int) (s : PackState) :
    phase2 rng width height min_radius 0 s = .ok s := rfl

theorem phase2_succ (rng : Nat → Nat) (width height min_radius : Int) (n : Nat)
    (s : PackState) :
    phase2 rng width height min_radius (n + 1) s =
      match phase2_body rng width height min_radius s with
      | .error e => .error e
      | .ok s₁ => phase2 rng width height min_radius n s₁ := rfl

/-! ### Basic facts about the sampling and collision primitives -/

theorem randint_ok {lo hi : Int} (h : lo ≤ hi) (u : Nat) :
    ∃ r, randint lo hi u = .ok r ∧ lo ≤ r ∧ r ≤ hi := by
  have hm : (0 : Int) < hi - lo + 1 := by omega
  have h1 : 0 ≤ (u : Int) % (hi - lo + 1) := Int.emod_nonneg _ (by omega)
  have h2 : (u : Int) % (hi - lo + 1) < hi - lo + 1 := Int.emod_lt_of_pos _ hm
  refine ⟨lo + (u : Int) % (hi - lo + 1), ?_, by omega, by omega⟩
  unfold randint
  rw [if_neg (by omega)]

theorem circles_overlap_comm (x1 y1 r1 x2 y2 r2 b : Int) :
    circles_overlap x1 y1 r1 x2 y2 r2 b = circles_overlap x2 y2 r2 x1 y1 r1 b := by
  have e1 : (x1 - x2) ^ 2 = (x2 - x1) ^ 2 := by ring
  have e2 : (y1 - y2) ^ 2 = (y2 - y1) ^ 2 := by ring
  have e3 : r2 + r1 + b = r1 + r2 + b := by ring
  simp only [circles_overlap, e1, e2, e3]

theorem can_place_bounds {width height x y r : Int} {placed : List Circle}
    (h : can_place_circle width height placed x y r = true) :
    r ≤ x ∧ x ≤ width - r ∧ r ≤ y ∧ y ≤ height - r := by
  unfold can_place_circle at h
  split at h
  · exact absurd h (by simp)
  · rename_i hc
    push_neg at hc
    omega

theorem can_place_no_overlap {width height x y r : Int} {placed : List Circle}
    (h : can_place_circle width height placed x y r = true) :
    ∀ c ∈ placed, circles_overlap x y r c.x c.y c.r 2 = false := by
  unfold can_place_circle at h
  split at h
  · exact absurd h (by simp)
  · intro c hc
    have h2 := List.all_eq_true.mp h c hc
    simpa using h2

/-! ### Preservation of the packing invariants -/

theorem sep_append {width height x y r : Int} {placed : List Circle}
    (hcp : can_place_circle width height placed x y r = true)
    (hsep : Separated placed) : Separated (placed ++ [⟨x, y, r⟩]) := by
  refine List.pairwise_append.mpr ⟨hsep, List.pairwise_singleton _ _, ?_⟩
  intro a ha b hb
  simp only [List.mem_singleton] at hb
  subst hb
  rw [circles_overlap_comm]
  exact can_place_no_overlap hcp a ha

theorem bounds_append {width height x y r : Int} {placed : List Circle}
    (hcp : can_place_circle width height placed x y r = true)
    (hbd : ∀ c ∈ placed, InBounds width height c) :
    ∀ c ∈ placed ++ [⟨x, y, r⟩], InBounds width height c := by
  intro c hc
  rcases List.mem_append.mp hc with hc | hc
  · exact hbd c hc
  · simp only [List.mem_singleton] at hc
    subst hc
    have hb := can_place_bounds hcp
    simp only [InBounds]
    exact hb

/-- What one successful Phase 1 iteration can do to the state: `total_attempts`
goes up by exactly one, the ghost draw counter is untouched, and the placed
list either stays as is (candidate rejected) or gains one circle that passed
`can_place_circle` against it (candidate accepted). -/
theorem phase1_body_cases {rng : Nat → Nat} {width height mr Mr : Int} {s s' : PackState}
    (h : phase1_body rng width height mr Mr s = .ok s') :
    s'.total_attempts = s.total_attempts + 1 ∧ s'.phase2_draws = s.phase2_draws ∧
      (s'.placed = s.placed ∨
        ∃ x y r, can_place_circle width height s.placed x y r = true ∧
          s'.placed = s.placed ++ [⟨x, y, r⟩]) := by
  unfold phase1_body at h
  split at h
  · exact absurd h (by simp)
  · split at h
    · exact absurd h (by simp)
    · split at h
      · exact absurd h (by simp)
      · split at h
        · injection h with h
          subst h
          refine ⟨rfl, rfl, .inr ⟨_, _, _, ?_, rfl⟩⟩
          assumption
        · injection h with h
          subst h
          exact ⟨rfl, rfl, .inl rfl⟩

/-- What one successful Phase 2 iteration can do to the state: one more
completed candidate draw, `total_attempts` untouched, and the placed list
either unchanged or extended by one circle that passed `can_place_circle`. -/
theorem phase2_body_cases {rng : Nat → Nat} {width height mr : Int} {s s' : PackState}
    (h : phase2_body rng width height mr s = .ok s') :
    s'.total_attempts = s.total_attempts ∧ s'.phase2_draws = s.phase2_draws + 1 ∧
      (s'.placed = s.placed ∨
        ∃ x y r, can_place_circle width height s.placed x y r = true ∧
          s'.placed = s.placed ++ [⟨x, y, r⟩]) := by
  unfold phase2_body at h
  split at h
  · exact absurd h (by simp)
  · split at h
    · exact absurd h (by simp)
    · split at h
      · exact absurd h (by simp)
      · split at h
        · injection h with h
          subst h
          refine ⟨rfl, rfl, .inr ⟨_, _, _, ?_, rfl⟩⟩
          assumption
        · injection h with h
          subst h
          exact ⟨rfl, rfl, .inl rfl⟩

theorem phase1_body_inv {rng : Nat → Nat} {width height mr Mr : Int} {s s' : PackState}
    (h : phase1_body rng width height mr Mr s = .ok s')
    (hsep : Separated s.placed) (hbd : ∀ c ∈ s.placed, InBounds width height c) :
    Separated s'.placed ∧ ∀ c ∈ s'.placed, InBounds width height c := by
  rcases (phase1_body_cases h).2.2 with hp | ⟨x, y, r, hcp, hp⟩ <;> rw [hp]
  · exact ⟨hsep, hbd⟩
  · exact ⟨sep_append hcp hsep, bounds_append hcp hbd⟩

theorem phase1_body_counters {rng : Nat → Nat} {width height mr Mr : Int} {s s' : PackState}
    (h : phase1_body rng width height mr Mr s = .ok s') :
    s'.total_attempts = s.total_attempts + 1 ∧ s'.phase2_draws = s.phase2_draws :=
  ⟨(phase1_body_cases h).1, (phase1_body_cases h).2.1⟩

theorem phase2_body_inv {rng : Nat → Nat} {width height mr : Int} {s s' : PackState}
    (h : phase2_body rng width height mr s = .ok s')
    (hsep : Separated s.placed) (hbd : ∀ c ∈ s.placed, InBounds width height c) :
    Separated s'.placed ∧ ∀ c ∈ s'.placed, InBounds width height c := by
  rcases (phase2_body_cases h).2.2 with hp | ⟨x, y, r, hcp, hp⟩ <;> rw [hp]
  · exact ⟨hsep, hbd⟩
  · exact ⟨sep_append hcp hsep, bounds_append hcp hbd⟩

theorem phase2_body_counters {rng : Nat → Nat} {width height mr : Int} {s s' : PackState}
    (h : phase2_body rng width height mr s = .ok s') :
    s'.total_attempts = s.total_attempts ∧ s'.phase2_draws = s.phase2_draws + 1 :=
  ⟨(phase2_body_cases h).1, (phase2_body_cases h).2.1⟩

theorem phase1_inv {rng : Nat → Nat} {width height mr Mr target budget : Int} :
    ∀ {fuel : Nat} {s s' : PackState},
      phase1 rng width height mr Mr target budget fuel s = .ok s' →
      Separated s.placed → (∀ c ∈ s.placed, InBounds width height c) →
      Separated s'.placed ∧ ∀ c ∈ s'.placed, InBounds width height c := by
  intro fuel
  induction fuel with
  | zero =>
    intro s s' h h1 h2
    rw [phase1_zero] at h
    injection h with h
    subst h
    exact ⟨h1, h2⟩
  | succ n ih =>
    intro s s' h h1 h2
    rw [phase1_succ] at h
    split at h
    · split at h
      · exact absurd h (by simp)
      · rename_i s₁ hbody
        have hinv := phase1_body_inv hbody h1 h2
        exact ih h hinv.1 hinv.2
    · injection h with h
      subst h
      exact ⟨h1, h2⟩

theorem phase2_inv {rng : Nat → Nat} {width height mr : Int} :
    ∀ {n : Nat} {s s' : PackState},
      phase2 rng width height mr n s = .ok s' →
      Separated s.placed → (∀ c ∈ s.placed, InBounds width height c) →
      Separated s'.placed ∧ ∀ c ∈ s'.placed, InBounds width height c := by
  intro n
  induction n with
  | zero =>
    intro s s' h h1 h2
    rw [phase2_zero] at h
    injection h with h
    subst h
    exact ⟨h1, h2⟩
  | succ n ih =>
    intro s s' h h1 h2
    rw [phase2_succ] at h
    split at h
    · exact absurd h (by simp)
    · rename_i s₁ hbody
      have hinv := phase2_body_inv hbody h1 h2
      exact ih h hinv.1 hinv.2

/-! ### Counter bookkeeping of the two loops -/

theorem phase1_counters {rng : Nat → Nat} {width height mr Mr target budget : Int} :
    ∀ {fuel : Nat} {s s' : PackState},
      phase1 rng width height mr Mr target budget fuel s = .ok s' →
      s.total_attempts ≤ budget →
      s'.total_attempts ≤ budget ∧ s'.phase2_draws = s.phase2_draws := by
  intro fuel
  induction fuel with
  | zero =>
    intro s s' h hle
    rw [phase1_zero] at h
    injection h with h
    subst h
    exact ⟨hle, rfl⟩
  | succ n ih =>
    intro s s' h hle
    rw [phase1_succ] at h
    split at h
    · rename_i hguard
      split at h
      · exact absurd h (by simp)
      · rename_i s₁ hbody
        have hc := phase1_body_counters hbody
        have := ih h (by omega)
        exact ⟨this.1, by rw [this.2, hc.2]⟩
    · injection h with h
      subst h
      exact ⟨hle, rfl⟩

theorem phase2_counters {rng : Nat → Nat} {width height mr : Int} :
    ∀ {n : Nat} {s s' : PackState},
      phase2 rng width height mr n s = .ok s' →
      s'.total_attempts = s.total_attempts ∧
        s'.phase2_draws = s.phase2_draws + n := by
  intro n
  induction n with
  | zero =>
    intro s s' h
    rw [phase2_zero] at h
    injection h with h
    subst h
    exact ⟨rfl, rfl⟩
  | succ n ih =>
    intro s s' h
    rw [phase2_succ] at h
    split at h
    · exact absurd h (by simp)
    · rename_i s₁ hbody
      have hc := phase2_body_counters hbody
      have := ih h
      refine ⟨by rw [this.1, hc.1], by rw [this.2, hc.2]; omega⟩

/-- Fuel adequacy: giving the Phase 1 loop one unit of fuel beyond
`budget - total_attempts` changes nothing, because each executed iteration
increments `total_attempts` and the guard requires `total_attempts < budget`.
Hence running the loop on fuel `(target * max_attempts).toNat`, as
`non_overlapping_circle_packed_image` does, is equivalent to the unbounded
`while` loop. -/
theorem phase1_fuel_adequate {rng : Nat → Nat} {width height mr Mr target budget : Int} :
    ∀ {fuel : Nat} {s : PackState},
      budget ≤ s.total_attempts + fuel →
      phase1 rng width height mr Mr target budget (fuel + 1) s =
        phase1 rng width height mr Mr target budget fuel s := by
  intro fuel
  induction fuel with
  | zero =>
    intro s hle
    rw [phase1_succ, phase1_zero, if_neg]
    rintro ⟨h1, h2⟩
    omega
  | succ n ih =>
    intro s hle
    rw [phase1_succ rng width height mr Mr target budget (n + 1) s,
      phase1_succ rng width height mr Mr target budget n s]
    by_cases hg : s.circles_placed < target ∧ s.total_attempts < budget
    · rw [if_pos hg, if_pos hg]
      cases hb : phase1_body rng width height mr Mr s with
      | error e => rfl
      | ok s₁ =>
        have hc := phase1_body_counters hb
        exact ih (by omega)
    · rw [if_neg hg, if_neg hg]

/-! ### Decomposition of a completed run -/

theorem size_stats_ok_ne_nil {placed : List Circle} {st : RunStats}
    (h : size_stats placed = .ok st) : placed ≠ [] := by
  intro hnil
  subst hnil
  simp [size_stats] at h

theorem run_destruct {img : Img} {path : String} {mr Mr : Int} {df : ℚ} {ma : Int}
    {rng : Nat → Nat} {out : RunOutcome}
    (h : non_overlapping_circle_packed_image img path mr Mr df ma rng = .ok out) :
    ∃ s₁ s₂ stats,
      phase1 rng (img.width : Int) (img.height : Int) mr Mr
          (target_circles img.width img.height mr Mr df)
          (target_circles img.width img.height mr Mr df * ma)
          (target_circles img.width img.height mr Mr df * ma).toNat initState = .ok s₁ ∧
      phase2 rng (img.width : Int) (img.height : Int) mr
          (Int.fdiv (target_circles img.width img.height mr Mr df) 2).toNat s₁ = .ok s₂ ∧
      size_stats s₂.placed = .ok stats ∧
      out = { ret := path, placed := s₂.placed, total_attempts := s₂.total_attempts,
              phase2_draws := s₂.phase2_draws, stats := stats } := by
  unfold non_overlapping_circle_packed_image at h
  split at h
  · exact absurd h (by simp)
  · rename_i s₁ h1
    split at h
    · exact absurd h (by simp)
    · rename_i s₂ h2
      split at h
      · exact absurd h (by simp)
      · rename_i stats h3
        injection h with h
        subst h
        exact ⟨s₁, s₂, stats, h1, h2, h3, rfl⟩

/-! ### From a failed overlap test to a real-distance bound -/

theorem sep_dist {x1 y1 r1 x2 y2 r2 : Int}
    (h : circles_overlap x1 y1 r1 x2 y2 r2 2 = false) :
    ((r1 + r2 + 2 : Int) : ℝ) ≤
      Real.sqrt (((x2 - x1 : Int) : ℝ) ^ 2 + ((y2 - y1 : Int) : ℝ) ^ 2) := by
  have h' : ¬(0 < r1 + r2 + 2 ∧ (x2 - x1) ^ 2 + (y2 - y1) ^ 2 < (r1 + r2 + 2) ^ 2) := by
    simpa [circles_overlap, decide_eq_false_iff_not] using h
  by_cases hs : 0 < r1 + r2 + 2
  · have hd : (r1 + r2 + 2) ^ 2 ≤ (x2 - x1) ^ 2 + (y2 - y1) ^ 2 :=
      Int.not_lt.mp (fun hlt => h' ⟨hs, hlt⟩)
    have hdR : ((r1 + r2 + 2 : Int) : ℝ) ^ 2 ≤
        ((x2 - x1 : Int) : ℝ) ^ 2 + ((y2 - y1 : Int) : ℝ) ^ 2 := by
      exact_mod_cast hd
    calc ((r1 + r2 + 2 : Int) : ℝ)
        = Real.sqrt (((r1 + r2 + 2 : Int) : ℝ) ^ 2) :=
          (Real.sqrt_sq (by exact_mod_cast hs.le)).symm
      _ ≤ _ := Real.sqrt_le_sqrt hdR
  · have hle : ((r1 + r2 + 2 : Int) : ℝ) ≤ 0 := by exact_mod_cast Int.not_lt.mp hs
    exact hle.trans (Real.sqrt_nonneg _)

/-- Invariants of a completed run: the final placed-set is pairwise separated
and fully in bounds. Both phases start from the empty list and insert only
after `can_place_circle`. -/
theorem run_inv {img : Img} {path : String} {mr Mr : Int} {df : ℚ} {ma : Int}
    {rng : Nat → Nat} {out : RunOutcome}
    (h : non_overlapping_circle_packed_image img path mr Mr df ma rng = .ok out) :
    Separated out.placed ∧
      ∀ c ∈ out.placed, InBounds (img.width : Int) (img.height : Int) c := by
  obtain ⟨s₁, s₂, stats, h1, h2, h3, hout⟩ := run_destruct h
  have i1 := phase1_inv h1 (by simp [initState, Separated]) (by simp [initState])
  have i2 := phase2_inv h2 i1.1 i1.2
  subst hout
  exact i2

/-! ### The claims -/

/-- C1: in every completed run, any two circles at distinct positions of the
final placed-set (accumulated across Phase 1 and Phase 2) have Euclidean
center distance at least the sum of their radii plus the buffer margin 2
(the default buffer, which is nonnegative): every circle is inserted only
after `can_place_circle` has checked it against all previously placed
circles. -/
theorem C1_no_overlap_invariant {img : Img} {path : String} {mr Mr : Int} {df : ℚ}
    {ma : Int} {rng : Nat → Nat} {out : RunOutcome}
    (hok : non_overlapping_circle_packed_image img path mr Mr df ma rng = .ok out) :
    ∀ i j : Fin out.placed.length, i ≠ j →
      (((out.placed.get i).r + (out.placed.get j).r + 2 : Int) : ℝ) ≤
        Real.sqrt ((((out.placed.get j).x - (out.placed.get i).x : Int) : ℝ) ^ 2 +
          (((out.placed.get j).y - (out.placed.get i).y : Int) : ℝ) ^ 2) := by
  have hsep := (run_inv hok).1
  intro i j hij
  rcases hij.lt_or_lt with hlt | hlt
  · exact sep_dist (List.pairwise_iff_get.mp hsep i j hlt)
  · have h := sep_dist (List.pairwise_iff_get.mp hsep j i hlt)
    calc (((out.placed.get i).r + (out.placed.get j).r + 2 : Int) : ℝ)
        = (((out.placed.get j).r + (out.placed.get i).r + 2 : Int) : ℝ) := by
          push_cast; ring
      _ ≤ Real.sqrt ((((out.placed.get i).x - (out.placed.get j).x : Int) : ℝ) ^ 2 +
            (((out.placed.get i).y - (out.placed.get j).y : Int) : ℝ) ^ 2) := h
      _ = Real.sqrt ((((out.placed.get j).x - (out.placed.get i).x : Int) : ℝ) ^ 2 +
            (((out.placed.get j).y - (out.placed.get i).y : Int) : ℝ) ^ 2) := by
          congr 1
          push_cast
          ring

/-- Witness for C1, instantiated at the concrete 30×30 run whose final
placed-set is `[⟨6,7,4⟩, ⟨14,15,5⟩]`: the two circles satisfy
`4 + 5 + 2 = 11 ≤ √((14-6)² + (15-7)²) = √128`. -/
theorem C1_no_overlap_invariant_witness : (11 : ℝ) ≤ Real.sqrt (8 ^ 2 + 8 ^ 2) := by
  have h := @C1_no_overlap_invariant img30 "p.png" 3 25 (3 / 2) 1 (fun k => k) demoOut
    (by with_unfolding_all rfl) ⟨0, by decide⟩ ⟨1, by decide⟩ (by decide)
  simpa [demoOut] using h

/-- C2: every circle of the final placed-set lies fully inside the canvas
(`r ≤ x ≤ width - r`, `r ≤ y ≤ height - r`), and in-boundedness of the whole
placed list is preserved by every successful Phase 1 and Phase 2 iteration. -/
theorem C2_in_bounds_invariant :
    (∀ (img : Img) (path : String) (mr Mr : Int) (df : ℚ) (ma : Int)
        (rng : Nat → Nat) (out : RunOutcome),
        non_overlapping_circle_packed_image img path mr Mr df ma rng = .ok out →
        ∀ c ∈ out.placed,
          c.r ≤ c.x ∧ c.x ≤ (img.width : Int) - c.r ∧
            c.r ≤ c.y ∧ c.y ≤ (img.height : Int) - c.r) ∧
    (∀ (rng : Nat → Nat) (width height mr Mr : Int) (s s' : PackState),
        phase1_body rng width height mr Mr s = .ok s' →
        (∀ c ∈ s.placed, InBounds width height c) →
        ∀ c ∈ s'.placed, InBounds width height c) ∧
    (∀ (rng : Nat → Nat) (width height mr : Int) (s s' : PackState),
        phase2_body rng width height mr s = .ok s' →
        (∀ c ∈ s.placed, InBounds width height c) →
        ∀ c ∈ s'.placed, InBounds width height c) := by
  refine ⟨?_, ?_, ?_⟩
  · intro img path mr Mr df ma rng out hok c hc
    have h := (run_inv hok).2 c hc
    simpa [InBounds] using h
  · intro rng width height mr Mr s s' h hbd
    rcases (phase1_body_cases h).2.2 with hp | ⟨x, y, r, hcp, hp⟩ <;> rw [hp]
    · exact hbd
    · exact bounds_append hcp hbd
  · intro rng width height mr s s' h hbd
    rcases (phase2_body_cases h).2.2 with hp | ⟨x, y, r, hcp, hp⟩ <;> rw [hp]
    · exact hbd
    · exact bounds_append hcp hbd

/-- Witness for C2 at the concrete 30×30 run: the placed circle `⟨6,7,4⟩`
satisfies `4 ≤ 6 ≤ 30 - 4` and `4 ≤ 7 ≤ 30 - 4`. -/
theorem C2_in_bounds_invariant_witness :
    (4 : Int) ≤ 6 ∧ (6 : Int) ≤ 30 - 4 ∧ (4 : Int) ≤ 7 ∧ (7 : Int) ≤ 30 - 4 := by
  have h := C2_in_bounds_invariant.1 img30 "p.png" 3 25 (3 / 2) 1 (fun k => k) demoOut
    (by with_unfolding_all rfl) ⟨6, 7, 4⟩ (by decide)
  exact h

/-- C5: (i) every successful Phase 1 loop iteration increments the attempt
counter by exactly one, whether the candidate is accepted or rejected; and
(ii) in a completed run with a nonnegative target and attempt multiplier, the
final attempt counter is at most `target_circles * max_attempts` (Phase 2 does
not touch it), and Phase 2 performed exactly `target_circles // 2` candidate
draws (Python floor division), with no retry-until-success. -/
theorem C5_termination_budget :
    (∀ (rng : Nat → Nat) (width height mr Mr : Int) (s s' : PackState),
        phase1_body rng width height mr Mr s = .ok s' →
        s'.total_attempts = s.total_attempts + 1) ∧
    (∀ (img : Img) (path : String) (mr Mr : Int) (df : ℚ) (ma : Int)
        (rng : Nat → Nat) (out : RunOutcome),
        non_overlapping_circle_packed_image img path mr Mr df ma rng = .ok out →
        0 ≤ target_circles img.width img.height mr Mr df → 0 ≤ ma →
        out.total_attempts ≤ target_circles img.width img.height mr Mr df * ma ∧
          (out.phase2_draws : Int) =
            Int.fdiv (target_circles img.width img.height mr Mr df) 2) := by
  constructor
  · intro rng width height mr Mr s s' h
    exact (phase1_body_cases h).1
  · intro img path mr Mr df ma rng out hok htarget hma
    obtain ⟨s₁, s₂, stats, h1, h2, h3, hout⟩ := run_destruct hok
    have hbudget : (0 : Int) ≤ target_circles img.width img.height mr Mr df * ma :=
      mul_nonneg htarget hma
    have c1 := phase1_counters h1 (by simpa [initState] using hbudget)
    have c2 := phase2_counters h2
    obtain ⟨t, ht⟩ := Int.eq_ofNat_of_zero_le htarget
    subst hout
    constructor
    · simp only [RunOutcome.total_attempts]
      rw [c2.1]
      exact c1.1
    · simp only [RunOutcome.phase2_draws]
      have h0 : s₁.phase2_draws = 0 := by simpa [initState] using c1.2
      have hfd : Int.fdiv (t : Int) 2 = ((t / 2 : Nat) : Int) := by
        rw [show (2 : Int) = ((2 : Nat) : Int) from rfl, ← Int.ofNat_fdiv]
      rw [c2.2, h0, ht, hfd]
      simp
      omega

/-- Witness for C5 at the concrete 30×30 run (`target_circles = 2`,
`max_attempts = 1`): the run ends with 2 attempts `≤ 2 * 1` and exactly
`2 // 2 = 1` Phase 2 draw. -/
theorem C5_termination_budget_witness :
    demoOut.total_attempts ≤ target_circles 30 30 3 25 (3 / 2) * 1 ∧
      (demoOut.phase2_draws : Int) = Int.fdiv (target_circles 30 30 3 25 (3 / 2)) 2 := by
  have h := C5_termination_budget.2 img30 "p.png" 3 25 (3 / 2) 1 (fun k => k) demoOut
    (by with_unfolding_all rfl)
    (by
      have ht : target_circles img30.width img30.height 3 25 (3 / 2) = 2 := by
        with_unfolding_all rfl
      omega)
    (by norm_num)
  exact h

/-- C9 counterexample: the value the Python function returns is the bare
output path. Two runs whose final statistics differ (total circle counts 2
and 1) have identical return values, so the statistics are not part of the
return value and are not available to the caller through it; the function
only prints them. -/
theorem C9_counterexample :
    retValueOf (non_overlapping_circle_packed_image img30 "p.png" 3 25 (3 / 2) 1
        (fun k => k)) =
      retValueOf (non_overlapping_circle_packed_image img20 "p.png" 5 5 (3 / 2) 1
        (fun _ => 0)) ∧
    statsOf (non_overlapping_circle_packed_image img30 "p.png" 3 25 (3 / 2) 1
        (fun k => k)) ≠
      statsOf (non_overlapping_circle_packed_image img20 "p.png" 5 5 (3 / 2) 1
        (fun _ => 0)) := by
  constructor
  · with_unfolding_all rfl
  · have e1 : statsOf (non_overlapping_circle_packed_image img30 "p.png" 3 25 (3 / 2) 1
        (fun k => k)) = some ⟨4, 5, 9 / 2, 2⟩ := by with_unfolding_all rfl
    have e2 : statsOf (non_overlapping_circle_packed_image img20 "p.png" 5 5 (3 / 2) 1
        (fun _ => 0)) = some ⟨5, 5, 5, 1⟩ := by with_unfolding_all rfl
    rw [e1, e2]
    intro hcon
    simp only [Option.some.injEq, RunStats.mk.injEq] at hcon
    omega

/-- C9 amended: on completion the function returns exactly the output path;
the run statistics (count, min, max, average radius) are computed and printed
but are not part of the return value. -/
theorem C9_returns_path_only {img : Img} {path : String} {mr Mr : Int} {df : ℚ}
    {ma : Int} {rng : Nat → Nat} {out : RunOutcome}
    (h : non_overlapping_circle_packed_image img path mr Mr df ma rng = .ok out) :
    out.ret = path := by
  obtain ⟨s₁, s₂, stats, h1, h2, h3, hout⟩ := run_destruct h
  subst hout
  rfl

/-- Witness for the amended C9 at the concrete 30×30 run. -/
theorem C9_returns_path_only_witness : demoOut.ret = "p.png" :=
  C9_returns_path_only (show non_overlapping_circle_packed_image img30 "p.png" 3 25
    (3 / 2) 1 (fun k => k) = .ok demoOut by with_unfolding_all rfl)

/-- C10: if a run completes, the final placed-set is nonempty — the statistics
step applies `min`/`max` to the list of radii and raises `ValueError` on an
empty list; concretely, on a 1×1 canvas (`target_circles = 0`, so no candidate
is ever drawn) the run terminates with that error instead of returning the
output path. -/
theorem C10_empty_stats_error :
    (∀ (img : Img) (path : String) (mr Mr : Int) (df : ℚ) (ma : Int)
        (rng : Nat → Nat) (out : RunOutcome),
        non_overlapping_circle_packed_image img path mr Mr df ma rng = .ok out →
        out.placed ≠ []) ∧
    non_overlapping_circle_packed_image img1 "out.jpg" 3 25 (3 / 2) 50 (fun _ => 0) =
      .error .minEmptySeq := by
  constructor
  · intro img path mr Mr df ma rng out h
    obtain ⟨s₁, s₂, stats, h1, h2, h3, hout⟩ := run_destruct h
    subst hout
    exact size_stats_ok_ne_nil h3
  · with_unfolding_all rfl

/-- Witness for C10 at the concrete 30×30 run: its placed-set is nonempty. -/
theorem C10_empty_stats_error_witness : demoOut.placed ≠ [] :=
  C10_empty_stats_error.1 img30 "p.png" 3 25 (3 / 2) 1 (fun k => k) demoOut
    (by with_unfolding_all rfl)

/-- C3 counterexample: the configuration `min_radius = 3 < 10 = max_radius` is
valid, yet when the weighted choice picks bucket 2 (raw draw 50), the sampler
calls `randint(11, min(16, 10)) = randint(11, 10)` — an empty integer range —
and raises `ValueError`: the error branch is reachable and the sampler can
fail. -/
theorem C3_counterexample :
    (0 : Int) < 3 ∧ (3 : Int) < 10 ∧
      get_varied_radius 3 10 50 0 = .error .randintEmptyRange :=
  ⟨by decide, by decide, by decide⟩

/-- C3 amended: when additionally `max_radius ≥ min_radius + 18` (so that
every bucket's lower bound stays at most `max_radius`), the sampler never
fails and always returns a radius in `[min_radius, max_radius]`; the clamping
`min(chosen_range[1], max_radius)` caps the upper end at `max_radius`. For
`max_radius < min_radius + 18` a bucket whose lower bound exceeds
`max_radius` makes `randint` raise `ValueError` instead. -/
theorem C3_sampler_range {mr Mr : Int} (h0 : 0 < mr) (h18 : mr + 18 ≤ Mr) (u v : Nat) :
    ∃ r : Int, get_varied_radius mr Mr u v = .ok r ∧ mr ≤ r ∧ r ≤ Mr := by
  have key : ∀ lo hi : Int, lo ≤ hi → lo ≤ Mr → mr ≤ lo →
      ∃ r : Int, randint lo (min hi Mr) v = .ok r ∧ mr ≤ r ∧ r ≤ Mr := by
    intro lo hi hlh hlM hml
    obtain ⟨r, hr, hr1, hr2⟩ := randint_ok (le_min hlh hlM) v
    exact ⟨r, hr, le_trans hml hr1, le_trans hr2 (min_le_right _ _)⟩
  have hb : chooseBucket u = 0 ∨ chooseBucket u = 1 ∨ chooseBucket u = 2 ∨
      chooseBucket u = 3 ∨ chooseBucket u = 4 := by
    unfold chooseBucket
    split_ifs <;> simp
  simp only [get_varied_radius]
  rcases hb with hb | hb | hb | hb | hb <;> rw [hb] <;> simp only [size_ranges] <;>
    exact key _ _ (by omega) (by omega) (by omega)

/-- Witness for the amended C3 at `min_radius = 3`, `max_radius = 25` (the
defaults, which satisfy `25 ≥ 3 + 18`). -/
theorem C3_sampler_range_witness :
    ∃ r : Int, get_varied_radius 3 25 0 0 = .ok r ∧ 3 ≤ r ∧ r ≤ 25 :=
  C3_sampler_range (by decide) (by decide) 0 0

/-- C4 counterexample: on the degenerate 10×10 canvas with `min_radius = 3`,
`max_radius = 25` the claim predicts termination by attempt-budget exhaustion
with a nonnegative placed count and no exception. In fact
`target_circles = int((100 / (π·14²)) · 1.5) = 0`, so no candidate is ever
drawn and the statistics step raises `ValueError` (`min` of an empty list):
the run ends in an exception, not in budget exhaustion. -/
theorem C4_counterexample :
    non_overlapping_circle_packed_image img10 "out.jpg" 3 25 (3 / 2) 50 (fun _ => 0) =
      .error .minEmptySeq := by
  with_unfolding_all rfl

/-- C4 amended: when a Phase 1 candidate radius `r` satisfies `width < 2r` or
`height < 2r`, the center draw `randint(r, width - r)` (or
`randint(r, height - r)`) has an empty range and the iteration raises
`ValueError` — the attempt counter is not incremented and the draw is not
skipped; and on the degenerate 10×10 canvas the computed target is 0, so the
run raises `ValueError` at the statistics step instead of exhausting an
attempt budget. -/
theorem C4_degenerate_radius_raises {rng : Nat → Nat} {width height mr Mr : Int}
    {s : PackState} {r : Int}
    (hr : get_varied_radius mr Mr (rng s.rngIdx) (rng (s.rngIdx + 1)) = .ok r)
    (hdeg : width < 2 * r ∨ height < 2 * r) :
    phase1_body rng width height mr Mr s = .error .randintEmptyRange := by
  simp only [phase1_body, hr, randint]
  have hcases : width - r < r ∨ (¬ width - r < r ∧ height - r < r) := by omega
  rcases hcases with hw | ⟨hw, hh⟩
  · rw [if_pos hw]
  · rw [if_neg hw, if_pos hh]

/-- Witness for the amended C4: on a 10×10 canvas the sampled radius 8
(bucket 1, raw draws 20) satisfies `10 < 16`, and the Phase 1 iteration
raises `ValueError` from the empty center range. -/
theorem C4_degenerate_radius_raises_witness :
    get_varied_radius 3 25 20 20 = .ok 8 ∧
      phase1_body (fun _ => 20) 10 10 3 25 initState = .error .randintEmptyRange := by
  have hr : get_varied_radius 3 25 20 20 = .ok 8 := by decide
  exact ⟨hr, C4_degenerate_radius_raises hr (Or.inl (by decide))⟩

/-- C6: the Phase 1 target equals
`⌊(width·height / (π·((min_radius+max_radius)/2)²)) · density_factor⌋` (with
π the `math.pi` constant; `int(...)` truncates toward zero, which is `⌊·⌋` for
the nonnegative values a nonnegative density factor produces), and on a
100×100 canvas with `min_radius = 5`, `max_radius = 10`,
`density_factor = 1.0` the target is 56. -/
theorem C6_target_count :
    (∀ (w h : Nat) (mr Mr : Int) (df : ℚ), 0 ≤ df →
        target_circles w h mr Mr df =
          ⌊(w : ℚ) * (h : ℚ) / (piFloat * (((mr : ℚ) + (Mr : ℚ)) / 2) ^ 2) * df⌋) ∧
      target_circles 100 100 5 10 1 = 56 := by
  constructor
  · intro w h mr Mr df hdf
    have hq : 0 ≤ (w : ℚ) * (h : ℚ) / (piFloat * (((mr : ℚ) + (Mr : ℚ)) / 2) ^ 2) * df := by
      apply mul_nonneg _ hdf
      apply div_nonneg (by positivity)
      apply mul_nonneg _ (sq_nonneg _)
      norm_num [piFloat]
    simp only [target_circles, pyInt]
    rw [if_neg (not_lt.mpr hq)]
    rw [Rat.floor_def', Rat.floor_def]
  · with_unfolding_all rfl

/-- Witness for C6 at the spec's scenario: 100×100, radii 5..10, density 1. -/
theorem C6_target_count_witness :
    target_circles 100 100 5 10 1 =
      ⌊((100 : Nat) : ℚ) * ((100 : Nat) : ℚ) /
          (piFloat * ((((5 : Int) : ℚ) + ((10 : Int) : ℚ)) / 2) ^ 2) * 1⌋ :=
  C6_target_count.1 100 100 5 10 1 (by norm_num)

/-- C7 (evidence for the code bug): the program performs no configuration
validation. With the invalid configuration `min_radius = max_radius = 5` on a
20×20 canvas it makes placement attempts and returns normally — one circle
placed, 7 attempts, 3 gap-fill draws — instead of failing fast with a
configuration error before any placement attempt. -/
theorem C7_no_config_validation :
    non_overlapping_circle_packed_image img20 "out.jpg" 5 5 (3 / 2) 1 (fun _ => 0) =
      .ok { ret := "out.jpg", placed := [⟨5, 5, 5⟩], total_attempts := 7, phase2_draws := 3,
            stats := { min := 5, max := 5, avg := 5, total_circles := 1 } } := by
  with_unfolding_all rfl

/-- C8 counterexample: on a 10×10 all-black canvas, the disk with center
`(-5, 5)` and radius 2 has an empty bounding box ∩ canvas intersection
(`min 10 (x+r) = -3 ≤ 0 = max 0 (x-r)`), so the claim requires the neutral
gray `(128, 128, 128)`; the code instead slices `img_np[3:7, 0:-3]`, whose
negative stop numpy wraps to column 7, and it returns the average `(0, 0, 0)`
of that nonempty wrapped region. -/
theorem C8_counterexample :
    min ((img10.width : Nat) : Int) (-5 + 2) ≤ max 0 (-5 - 2) ∧
      get_avg_color img10 (-5) 5 2 = (0, 0, 0) ∧
      get_avg_color img10 (-5) 5 2 ≠ (128, 128, 128) :=
  ⟨by decide, by decide, by decide⟩

/-- C8 amended: whenever the bounding-box stops are nonnegative
(`0 ≤ x + r` and `0 ≤ y + r` — always the case for circles the packing engine
samples, whose centers satisfy `x ≥ r ≥ 0`), `get_avg_color` returns exactly
what the specification describes: the per-channel mean over the circle's
bounding box clipped to the canvas, and the neutral gray `(128, 128, 128)`
when that clipped region is empty. (When a stop is negative, the numpy slice
wraps around instead — see the counterexample.) -/
theorem C8_clipped_average (img : Img) (x y r : Int) (hx : 0 ≤ x + r) (hy : 0 ≤ y + r) :
    get_avg_color img x y r = avgColorSpec img x y r := by
  have hw0 : (0 : Int) ≤ (img.width : Int) := Int.ofNat_nonneg _
  have hh0 : (0 : Int) ≤ (img.height : Int) := Int.ofNat_nonneg _
  simp only [get_avg_color, avgColorSpec, npIndex]
  split_ifs <;> first
  | rfl
  | omega
  | (have ea : min img.width (max 0 (x - r)).toNat = (max 0 (x - r)).toNat := by omega
     have eb : min img.height (max 0 (y - r)).toNat = (max 0 (y - r)).toNat := by omega
     have ec : min img.width (min (img.width : Int) (x + r)).toNat - (max 0 (x - r)).toNat
         = (min (img.width : Int) (x + r) - max 0 (x - r)).toNat := by omega
     have ed : min img.height (min (img.height : Int) (y + r)).toNat - (max 0 (y - r)).toNat
         = (min (img.height : Int) (y + r) - max 0 (y - r)).toNat := by omega
     rw [ea, eb, ec, ed])

/-- Witness for the amended C8: an in-canvas circle on the 10×10 canvas. -/
theorem C8_clipped_average_witness :
    get_avg_color img10 5 5 2 = avgColorSpec img10 5 5 2 :=
  C8_clipped_average img10 5 5 2 (by decide) (by decide)

end CirclePack
